import Mathlib

/-!
# Verification of the time-based differential-drive controller

Shallow embedding of the two source files of the repository:

* `src/robotek.cpp` — motion controller for a two-motor robot (ESP32 + L298N):
  `speedPercentToPwm`, `driveForward`, `rotate`, `stopMotors`.
* `src/sonar.cpp` — ultrasonic ranging utility: `measureDistanceCm`.

Modelling conventions:

* C `float` values (distances, angles, calibration constants) are modelled
  as rationals `ℚ`; the claims under scrutiny concern exact rounding,
  clamping, signs and sentinels, which the rational model captures.
* Hardware writes (`digitalWrite`, `ledcWrite`) and the timed busy-wait are
  modelled as a trace of `Action`s; the Motor Output State is obtained by
  folding the trace over a `RobotState`.
* The busy-wait `while (millis() - start < runTimeMs) delay(5);` is modelled
  by the single action `Action.waitMs runTimeMs`: the computed run duration is
  the quantity the spec talks about.
* Arduino's integer helpers `constrain` and `map` are modelled exactly as in
  the Arduino core: `map` uses C `long` division, which truncates toward zero
  (`Int.tdiv`).
* `pulseIn(ECHO_PIN, HIGH, 30000)` returns the echo pulse length in µs, or 0
  when no complete pulse arrived within the 30000 µs timeout; its result is a
  parameter of the model of `measureDistanceCm`.
-/

namespace Robotek

/-! ## Pin and channel constants (src/robotek.cpp, lines 24-36) -/

def ENA : ℕ := 25
def IN1 : ℕ := 26
def IN2 : ℕ := 27
def ENB : ℕ := 14
def IN3 : ℕ := 12
def IN4 : ℕ := 13

def PWM_FREQ : ℕ := 2000
def PWM_RESOLUTION : ℕ := 8
def PWM_CHANNEL_LEFT : ℕ := 0
def PWM_CHANNEL_RIGHT : ℕ := 1

/-! ## Calibration constants (lines 42, 49) -/

/-- `float ms_per_cm = 80.0;` -/
def ms_per_cm : ℚ := 80

/-- `float ms_per_degree = 8.4;` -/
def ms_per_degree : ℚ := 84 / 10

/-! ## Arduino integer helpers used by the source -/

/-- Arduino `constrain(amt, low, high)`:
`(amt < low ? low : (amt > high ? high : amt))`. -/
def constrain (amt low high : ℤ) : ℤ :=
  if amt < low then low else if amt > high then high else amt

/-- Arduino `map(x, in_min, in_max, out_min, out_max)` on C `long`:
`(x - in_min) * (out_max - out_min) / (in_max - in_min) + out_min`,
where `/` is C integer division (truncation toward zero, `Int.tdiv`). -/
def map (x in_min in_max out_min out_max : ℤ) : ℤ :=
  Int.tdiv ((x - in_min) * (out_max - out_min)) (in_max - in_min) + out_min

/-- C `round()`: round half away from zero. -/
def cround (q : ℚ) : ℤ := if q < 0 then -⌊-q + 1 / 2⌋ else ⌊q + 1 / 2⌋

/-! ## speedPercentToPwm (lines 52-55)

```cpp
int speedPercentToPwm(int speedPercent) {
  speedPercent = constrain(speedPercent, 0, 100);
  return map(speedPercent, 0, 100, 0, 255);
}
``` -/

def speedPercentToPwm (speedPercent : ℤ) : ℤ :=
  map (constrain speedPercent 0 100) 0 100 0 255

/-! ## Hardware action traces and Motor Output State -/

/-- One hardware-facing step of a motion command: a direction-line write, a
PWM duty write, or the timed busy-wait (`waitMs t` stands for the loop
`while (millis() - start < t) delay(5);`). -/
inductive Action where
  | digitalWrite (pin : ℕ) (level : Bool)
  | ledcWrite (channel : ℕ) (duty : ℤ)
  | waitMs (ms : ℕ)
deriving DecidableEq, Repr

/-- Motor Output State: the four L298N direction lines and the two PWM duty
registers. -/
structure RobotState where
  in1 : Bool
  in2 : Bool
  in3 : Bool
  in4 : Bool
  dutyLeft : ℤ
  dutyRight : ℤ
deriving DecidableEq, Repr

/-- Effect of one action on the Motor Output State. -/
def applyAction (s : RobotState) : Action → RobotState
  | .digitalWrite p l =>
      if p = IN1 then { s with in1 := l }
      else if p = IN2 then { s with in2 := l }
      else if p = IN3 then { s with in3 := l }
      else if p = IN4 then { s with in4 := l }
      else s
  | .ledcWrite c d =>
      if c = PWM_CHANNEL_LEFT then { s with dutyLeft := d }
      else if c = PWM_CHANNEL_RIGHT then { s with dutyRight := d }
      else s
  | .waitMs _ => s

/-- Fold a trace of actions over a state. -/
def runActions (s : RobotState) (l : List Action) : RobotState :=
  l.foldl applyAction s

/-- Total number of milliseconds a trace keeps the motors running
(the sum of its waits). -/
def runDuration : List Action → ℕ
  | [] => 0
  | .waitMs m :: rest => m + runDuration rest
  | .digitalWrite _ _ :: rest => runDuration rest
  | .ledcWrite _ _ :: rest => runDuration rest

/-- The Motor Output State at the moment the first timed wait begins, i.e.
the state in force while the motors run. -/
def stateAtWait (s : RobotState) : List Action → RobotState
  | [] => s
  | .waitMs _ :: _ => s
  | .digitalWrite p l :: rest => stateAtWait (applyAction s (.digitalWrite p l)) rest
  | .ledcWrite c d :: rest => stateAtWait (applyAction s (.ledcWrite c d)) rest

/-- Per-motor direction, decoded from the two control lines
(§4.2 truth table; `Brake` is both lines asserted). -/
inductive Direction where
  | Forward
  | Backward
  | Coast
  | Brake
deriving DecidableEq, Repr

/-- Direction truth table: line A asserted alone is Forward, line B asserted
alone is Backward, both deasserted is Coast. -/
def lineDirection (a b : Bool) : Direction :=
  match a, b with
  | true, false => .Forward
  | false, true => .Backward
  | false, false => .Coast
  | true, true => .Brake

def leftDirection (s : RobotState) : Direction := lineDirection s.in1 s.in2

def rightDirection (s : RobotState) : Direction := lineDirection s.in3 s.in4

/-- Both motors at duty 0 with all four direction lines deasserted (Coast). -/
def stopped (s : RobotState) : Prop :=
  s.in1 = false ∧ s.in2 = false ∧ s.in3 = false ∧ s.in4 = false ∧
    s.dutyLeft = 0 ∧ s.dutyRight = 0

instance (s : RobotState) : Decidable (stopped s) := by
  unfold stopped; infer_instance

/-! ## stopMotors (lines 202-211) -/

/-- ```cpp
void stopMotors() {
  ledcWrite(PWM_CHANNEL_LEFT, 0);
  ledcWrite(PWM_CHANNEL_RIGHT, 0);
  digitalWrite(IN1, LOW);
  digitalWrite(IN2, LOW);
  digitalWrite(IN3, LOW);
  digitalWrite(IN4, LOW);
}
``` -/
def stopMotors : List Action :=
  [.ledcWrite PWM_CHANNEL_LEFT 0, .ledcWrite PWM_CHANNEL_RIGHT 0,
   .digitalWrite IN1 false, .digitalWrite IN2 false,
   .digitalWrite IN3 false, .digitalWrite IN4 false]

/-! ## driveForward (lines 102-142) -/

/-- Trace of `driveForward(distance_cm, speed_percent)`: guard, computed
`runTimeMs = (unsigned long) round(distance_cm * ms_per_cm)`, both motors
forward, equal PWM on both channels, timed wait, `stopMotors()`.
Serial prints are omitted (no effect on Motor Output State). -/
def driveForward (distance_cm : ℚ) (speed_percent : ℤ) : List Action :=
  if distance_cm ≤ 0 ∨ speed_percent ≤ 0 then []
  else
    let runTimeMs : ℕ := (cround (distance_cm * ms_per_cm)).toNat
    let pwmVal : ℤ := speedPercentToPwm speed_percent
    [.digitalWrite IN1 true, .digitalWrite IN2 false,
     .digitalWrite IN3 true, .digitalWrite IN4 false,
     .ledcWrite PWM_CHANNEL_LEFT pwmVal, .ledcWrite PWM_CHANNEL_RIGHT pwmVal,
     .waitMs runTimeMs] ++ stopMotors

/-! ## rotate (lines 148-197) -/

/-- Trace of `rotate(angle_deg, speed_percent)`: guard, computed
`runTimeMs = (unsigned long) round(abs(angle_deg) * ms_per_degree)`,
direction split on the sign of `angle_deg`, equal PWM on both channels,
timed wait, `stopMotors()`. -/
def rotate (angle_deg : ℚ) (speed_percent : ℤ) : List Action :=
  if angle_deg = 0 ∨ speed_percent ≤ 0 then []
  else
    let runTimeMs : ℕ := (cround (|angle_deg| * ms_per_degree)).toNat
    let pwmVal : ℤ := speedPercentToPwm speed_percent
    (if angle_deg > 0 then
      [.digitalWrite IN1 true, .digitalWrite IN2 false,
       .digitalWrite IN3 false, .digitalWrite IN4 true]
    else
      [.digitalWrite IN1 false, .digitalWrite IN2 true,
       .digitalWrite IN3 true, .digitalWrite IN4 false]) ++
    [.ledcWrite PWM_CHANNEL_LEFT pwmVal, .ledcWrite PWM_CHANNEL_RIGHT pwmVal,
     .waitMs runTimeMs] ++ stopMotors

/-! ## Command layer -/

/-- One call of the command-level API. -/
inductive Cmd where
  | drive (distance_cm : ℚ) (speed_percent : ℤ)
  | rot (angle_deg : ℚ) (speed_percent : ℤ)
  | stop

/-- The hardware trace of one command. -/
def cmdActions : Cmd → List Action
  | .drive d sp => driveForward d sp
  | .rot a sp => rotate a sp
  | .stop => stopMotors

/-- Motor Output State after `setup()` (which ends in `stopMotors()`)
followed by a sequence of commands, starting from an arbitrary power-on
state `s`. -/
def runProgram (s : RobotState) (cmds : List Cmd) : RobotState :=
  cmds.foldl (fun t c => runActions t (cmdActions c)) (runActions s stopMotors)

end Robotek

namespace Sonar

/-! ## measureDistanceCm (src/sonar.cpp, lines 12-37) -/

/-- Timeout handed to `pulseIn`: 30000 µs = 30 ms. -/
def ECHO_TIMEOUT_US : ℕ := 30000

/-- Result of `pulseIn(ECHO_PIN, HIGH, 30000UL)`: the length of the echo
pulse when one completed within the timeout (`some t`), else 0. -/
def pulseInResult (echo : Option ℕ) : ℕ :=
  match echo with
  | none => 0
  | some t => t

/-- ```cpp
float measureDistanceCm() {
  ...
  long duration = pulseIn(ECHO_PIN, HIGH, 30000UL);
  if (duration == 0) { return -1.0; }
  float distance_cm = (duration * 0.0343f) / 2.0f;
  return distance_cm;
}
```
parameterised by the value `pulseIn` returned. -/
def measureDistanceCm (duration : ℕ) : ℚ :=
  if duration = 0 then -1 else ((duration : ℚ) * (343 / 10000)) / 2

end Sonar

/-! # Theorems -/

namespace Robotek

/-! ## Helper lemmas -/

theorem constrain_eq_min_max (p : ℤ) : constrain p 0 100 = min (max p 0) 100 := by
  unfold constrain
  split_ifs <;> omega

theorem cround_eq_of (q : ℚ) (z : ℤ) (h0 : 0 ≤ q) (h1 : (z : ℚ) ≤ q + 1 / 2)
    (h2 : q + 1 / 2 < z + 1) : cround q = z := by
  rw [cround, if_neg (not_lt.mpr h0)]
  exact Int.floor_eq_iff.mpr ⟨h1, by exact_mod_cast h2⟩

theorem runActions_append (s : RobotState) (l1 l2 : List Action) :
    runActions s (l1 ++ l2) = runActions (runActions s l1) l2 :=
  List.foldl_append applyAction s l1 l2

theorem stopped_runActions_stopMotors (s : RobotState) :
    stopped (runActions s stopMotors) := by
  simp [runActions, stopMotors, applyAction, stopped,
    IN1, IN2, IN3, IN4, PWM_CHANNEL_LEFT, PWM_CHANNEL_RIGHT]

/-! ## C1: speedPercentToPwm conversion -/

/-- C1 counterexample: at `speedPercent = 1` the code computes
`map(1, 0, 100, 0, 255) = 1 * 255 / 100 = 2` (C integer division truncates),
while `round(1 * 255 / 100) = round(2.55) = 3`. -/
theorem speedPercentToPwm_one_ne_round :
    speedPercentToPwm 1 ≠ cround ((1 : ℚ) * 255 / 100) := by
  have h1 : speedPercentToPwm 1 = 2 := by decide
  have h2 : cround ((1 : ℚ) * 255 / 100) = 3 := by
    refine cround_eq_of _ 3 (by norm_num) (by norm_num) (by norm_num)
  rw [h1, h2]
  decide

/-- C1 (amended): `speedPercentToPwm` clamps its input to `[0,100]` and then
returns `percent * 255 / 100` rounded DOWN (C integer division truncation,
i.e. the floor of the linearly scaled duty value), not rounded to nearest. -/
theorem speedPercentToPwm_eq_floor_scaled (p : ℤ) :
    speedPercentToPwm p = ⌊min (max (p : ℚ) 0) 100 * 255 / 100⌋ := by
  unfold speedPercentToPwm map
  rw [constrain_eq_min_max p]
  have h0 : (0 : ℤ) ≤ min (max p 0) 100 * 255 :=
    mul_nonneg (le_min (le_max_right p 0) (by norm_num)) (by norm_num)
  rw [show (min (max p 0) 100 - 0) * (255 - 0) = min (max p 0) 100 * 255 from by
    ring]
  rw [show ((100 : ℤ) - 0) = ((100 : ℕ) : ℤ) from by norm_num]
  rw [Int.tdiv_eq_ediv h0 (by norm_num)]
  rw [← Rat.floor_intCast_div_natCast]
  push_cast
  norm_num

/-! ## C7: clamping below 0 and above 100 -/

/-- C7: for `speedPercent < 0` the result equals that of 0, and for
`speedPercent > 100` it equals that of 100. -/
theorem speedPercentToPwm_clamped (sp : ℤ) :
    (sp < 0 → speedPercentToPwm sp = speedPercentToPwm 0) ∧
    (100 < sp → speedPercentToPwm sp = speedPercentToPwm 100) := by
  constructor <;> intro h <;> unfold speedPercentToPwm <;> congr 1 <;>
    unfold constrain <;> split_ifs <;> omega

/-- C7 witness at `-7` and `150`. -/
theorem speedPercentToPwm_clamped_witness :
    speedPercentToPwm (-7) = speedPercentToPwm 0 ∧
    speedPercentToPwm 150 = speedPercentToPwm 100 :=
  ⟨(speedPercentToPwm_clamped (-7)).1 (by decide),
   (speedPercentToPwm_clamped 150).2 (by decide)⟩

/-! ## C10: over-range speed behaves like 100 -/

/-- C10: for `distanceCm > 0` and `speedPercent > 100`, `driveForward`
produces exactly the trace of `driveForward` at speed 100: same guard
outcome, direction writes, duty value and duration. -/
theorem driveForward_overspeed_eq_full (d : ℚ) (sp : ℤ) (hd : 0 < d)
    (hsp : 100 < sp) : driveForward d sp = driveForward d 100 := by
  have hpwm : speedPercentToPwm sp = speedPercentToPwm 100 := by
    unfold speedPercentToPwm
    congr 1
    unfold constrain
    split_ifs <;> omega
  unfold driveForward
  rw [if_neg (by push_neg; exact ⟨hd, by omega⟩),
    if_neg (by push_neg; exact ⟨hd, by norm_num⟩)]
  simp only [hpwm]

/-- C10 witness at distance 10, speed 150. -/
theorem driveForward_overspeed_eq_full_witness :
    driveForward 10 150 = driveForward 10 100 :=
  driveForward_overspeed_eq_full 10 150 (by norm_num) (by norm_num)

end Robotek

namespace Robotek

theorem stopped_runActions_cmd (t : RobotState) (c : Cmd) (h : stopped t) :
    stopped (runActions t (cmdActions c)) := by
  cases c with
  | drive d sp =>
    by_cases hg : d ≤ 0 ∨ sp ≤ 0
    · simpa [cmdActions, driveForward, hg, runActions] using h
    · simp only [cmdActions, driveForward, hg, if_false]
      rw [runActions_append]
      exact stopped_runActions_stopMotors _
  | rot a sp =>
    by_cases hg : a = 0 ∨ sp ≤ 0
    · simpa [cmdActions, rotate, hg, runActions] using h
    · simp only [cmdActions, rotate, hg, if_false]
      rw [runActions_append, runActions_append]
      exact stopped_runActions_stopMotors _
  | stop => exact stopped_runActions_stopMotors t

theorem stopped_iff_coast_zero (s : RobotState) :
    stopped s ↔ leftDirection s = Direction.Coast ∧
      rightDirection s = Direction.Coast ∧ s.dutyLeft = 0 ∧ s.dutyRight = 0 := by
  obtain ⟨i1, i2, i3, i4, dl, dr⟩ := s
  constructor
  · rintro ⟨rfl, rfl, rfl, rfl, rfl, rfl⟩
    exact ⟨rfl, rfl, rfl, rfl⟩
  · rintro ⟨h1, h2, h3, h4⟩
    cases i1 <;> cases i2 <;> cases i3 <;> cases i4 <;>
      simp_all [leftDirection, rightDirection, lineDirection, stopped]

/-! ## C2: every command ends with both motors stopped -/

/-- C2: starting from any power-on state, after `setup()`'s `stopMotors()`
and then any sequence of `driveForward` / `rotate` / `stopMotors` calls with
any argument combinations, the final Motor Output State has both duty cycles
at 0 and both motors at Coast (all four direction lines deasserted). -/
theorem motors_stopped_after_every_command (s : RobotState) (cmds : List Cmd) :
    stopped (runProgram s cmds) ∧
      leftDirection (runProgram s cmds) = Direction.Coast ∧
      rightDirection (runProgram s cmds) = Direction.Coast := by
  have key : ∀ (l : List Cmd) (t : RobotState), stopped t →
      stopped (l.foldl (fun u c => runActions u (cmdActions c)) t) := by
    intro l
    induction l with
    | nil => intro t h; exact h
    | cons c rest ih =>
      intro t h
      exact ih _ (stopped_runActions_cmd t c h)
  have hs : stopped (runProgram s cmds) :=
    key cmds _ (stopped_runActions_stopMotors s)
  have := (stopped_iff_coast_zero _).mp hs
  exact ⟨hs, this.1, this.2.1⟩

/-! ## C5: rotate direction policy -/

/-- C5: with any positive speed, `rotate` with a positive angle drives the
left motor Forward (IN1 asserted, IN2 deasserted) and the right motor
Backward, while a negative angle drives the left motor Backward and the
right motor Forward, as read off at the moment the timed wait begins. -/
theorem rotate_direction_policy (s : RobotState) (a : ℚ) (sp : ℤ)
    (hsp : 0 < sp) :
    (0 < a → leftDirection (stateAtWait s (rotate a sp)) = Direction.Forward ∧
      rightDirection (stateAtWait s (rotate a sp)) = Direction.Backward) ∧
    (a < 0 → leftDirection (stateAtWait s (rotate a sp)) = Direction.Backward ∧
      rightDirection (stateAtWait s (rotate a sp)) = Direction.Forward) := by
  constructor
  · intro ha
    have hg : ¬(a = 0 ∨ sp ≤ 0) := by push_neg; exact ⟨ne_of_gt ha, hsp⟩
    simp [rotate, hg, ha, stateAtWait, applyAction, leftDirection,
      rightDirection, lineDirection, IN1, IN2, IN3, IN4,
      PWM_CHANNEL_LEFT, PWM_CHANNEL_RIGHT]
  · intro ha
    have hg : ¬(a = 0 ∨ sp ≤ 0) := by push_neg; exact ⟨ne_of_lt ha, hsp⟩
    have ha2 : ¬(a > 0) := not_lt.mpr (le_of_lt ha)
    simp [rotate, hg, ha2, stateAtWait, applyAction, leftDirection,
      rightDirection, lineDirection, IN1, IN2, IN3, IN4,
      PWM_CHANNEL_LEFT, PWM_CHANNEL_RIGHT]

/-- C5 witness: from the all-off state, `rotate 90 60` runs left=Forward,
right=Backward and `rotate (-90) 60` runs left=Backward, right=Forward. -/
theorem rotate_direction_policy_witness :
    (leftDirection (stateAtWait ⟨false, false, false, false, 0, 0⟩
        (rotate 90 60)) = Direction.Forward ∧
      rightDirection (stateAtWait ⟨false, false, false, false, 0, 0⟩
        (rotate 90 60)) = Direction.Backward) ∧
    (leftDirection (stateAtWait ⟨false, false, false, false, 0, 0⟩
        (rotate (-90) 60)) = Direction.Backward ∧
      rightDirection (stateAtWait ⟨false, false, false, false, 0, 0⟩
        (rotate (-90) 60)) = Direction.Forward) :=
  ⟨(rotate_direction_policy _ 90 60 (by norm_num)).1 (by norm_num),
   (rotate_direction_policy _ (-90) 60 (by norm_num)).2 (by norm_num)⟩

/-! ## C6: invalid inputs are silent no-ops -/

/-- C6: `driveForward` with `distanceCm ≤ 0` or `speedPercent ≤ 0`, and
`rotate` with `angleDeg = 0` or `speedPercent ≤ 0`, emit no hardware action
at all (empty trace) and leave any Motor Output State unchanged; there is no
error path. -/
theorem invalid_inputs_are_noops (d a : ℚ) (sp spr : ℤ)
    (hd : d ≤ 0 ∨ sp ≤ 0) (ha : a = 0 ∨ spr ≤ 0) :
    driveForward d sp = [] ∧ rotate a spr = [] ∧
      ∀ s : RobotState, runActions s (driveForward d sp) = s ∧
        runActions s (rotate a spr) = s := by
  refine ⟨by simp [driveForward, hd], by simp [rotate, ha], ?_⟩
  intro s
  constructor <;> simp [driveForward, rotate, hd, ha, runActions]

/-- C6 witness: `driveForward (-5) 50` and `rotate 0 60` are no-ops. -/
theorem invalid_inputs_are_noops_witness :
    driveForward (-5) 50 = [] ∧ rotate 0 60 = [] ∧
      ∀ s : RobotState, runActions s (driveForward (-5) 50) = s ∧
        runActions s (rotate 0 60) = s :=
  invalid_inputs_are_noops (-5) 0 50 60 (Or.inl (by norm_num)) (Or.inl rfl)

end Robotek

namespace Robotek

theorem runDuration_stopMotors : runDuration stopMotors = 0 := by
  simp [stopMotors, runDuration]

theorem rotate_runDuration (a : ℚ) (sp : ℤ) (ha : a ≠ 0) (hsp : 0 < sp) :
    runDuration (rotate a sp) = (cround (|a| * ms_per_degree)).toNat := by
  have hg : ¬(a = 0 ∨ sp ≤ 0) := by push_neg; exact ⟨ha, hsp⟩
  by_cases hpos : a > 0 <;>
    simp [rotate, hg, hpos, runDuration, stopMotors]

/-! ## C3: driveForward run duration -/

/-- C3: for positive distance and speed, the computed run time of
`driveForward` is `round(distanceCm * ms_per_cm)` milliseconds, cast to the
unsigned millisecond counter. -/
theorem driveForward_runtime (d : ℚ) (sp : ℤ) (hd : 0 < d) (hsp : 0 < sp) :
    runDuration (driveForward d sp) = (cround (d * ms_per_cm)).toNat := by
  have hg : ¬(d ≤ 0 ∨ sp ≤ 0) := by push_neg; exact ⟨hd, hsp⟩
  simp [driveForward, hg, runDuration, stopMotors]

/-- C3 witness: `driveForward 30 60` with `ms_per_cm = 80` runs for
`round(30 * 80) = 2400` ms. -/
theorem driveForward_runtime_witness :
    runDuration (driveForward 30 60) = 2400 := by
  have h := driveForward_runtime 30 60 (by norm_num) (by norm_num)
  have hc : cround (30 * ms_per_cm) = 2400 :=
    cround_eq_of _ 2400 (by norm_num [ms_per_cm]) (by norm_num [ms_per_cm])
      (by norm_num [ms_per_cm])
  rw [h, hc]
  rfl

/-! ## C4: rotate run duration is sign-independent -/

/-- C4: for nonzero angle and positive speed, the computed run time of
`rotate` is `round(|angleDeg| * ms_per_degree)` milliseconds, and `rotate`
at `-angleDeg` computes the same duration. -/
theorem rotate_runtime_sign_independent (a : ℚ) (sp : ℤ) (ha : a ≠ 0)
    (hsp : 0 < sp) :
    runDuration (rotate a sp) = (cround (|a| * ms_per_degree)).toNat ∧
      runDuration (rotate a sp) = runDuration (rotate (-a) sp) := by
  have h1 := rotate_runDuration a sp ha hsp
  have h2 := rotate_runDuration (-a) sp (neg_ne_zero.mpr ha) hsp
  refine ⟨h1, ?_⟩
  rw [h1, h2, abs_neg]

/-- C4 witness: `rotate 90 60` and `rotate (-90) 60` with
`ms_per_degree = 8.4` both run for `round(756) = 756` ms. -/
theorem rotate_runtime_sign_independent_witness :
    runDuration (rotate 90 60) = 756 ∧
      runDuration (rotate (-90) 60) = 756 := by
  have h := rotate_runtime_sign_independent 90 60 (by norm_num) (by norm_num)
  have hc : cround (|(90 : ℚ)| * ms_per_degree) = 756 :=
    cround_eq_of _ 756 (by norm_num [ms_per_degree])
      (by rw [abs_of_pos] <;> norm_num [ms_per_degree])
      (by rw [abs_of_pos] <;> norm_num [ms_per_degree])
  have e1 : runDuration (rotate 90 60) = 756 := by
    rw [h.1, hc]; rfl
  exact ⟨e1, by rw [← h.2, e1]⟩

end Robotek

namespace Sonar

/-! ## C8: echo timeout sentinel -/

/-- C8: `measureDistanceCm` returns the sentinel `-1.0` exactly when
`pulseIn` reported no echo pulse within the 30 ms timeout (result 0), and
otherwise returns the measured distance `duration * 0.0343 / 2` in
centimeters.  The hypothesis records that a completed echo pulse has
positive length. -/
theorem measureDistanceCm_sentinel (echo : Option ℕ)
    (h : ∀ t, echo = some t → 0 < t) :
    (measureDistanceCm (pulseInResult echo) = -1 ↔ echo = none) ∧
      ∀ t, echo = some t →
        measureDistanceCm (pulseInResult echo) = (t : ℚ) * (343 / 10000) / 2 := by
  cases echo with
  | none =>
    refine ⟨by simp [measureDistanceCm, pulseInResult], ?_⟩
    intro t ht
    exact absurd ht (by simp)
  | some t =>
    have ht : 0 < t := h t rfl
    have hne : t ≠ 0 := Nat.pos_iff_ne_zero.mp ht
    have hval : measureDistanceCm (pulseInResult (some t)) =
        (t : ℚ) * (343 / 10000) / 2 := by
      simp [measureDistanceCm, pulseInResult, hne]
    refine ⟨?_, ?_⟩
    · rw [hval]
      have hpos : (0 : ℚ) < (t : ℚ) * (343 / 10000) / 2 := by
        have : (0 : ℚ) < (t : ℚ) := by exact_mod_cast ht
        positivity
      constructor
      · intro hbad
        exact absurd (hbad ▸ hpos) (by norm_num)
      · intro hbad
        exact absurd hbad (by simp)
    · intro u hu
      obtain rfl : u = t := by injection hu.symm
      exact hval

/-- C8 witness: a 583 µs echo measures `583 * 0.0343 / 2` cm; no echo
measures `-1`. -/
theorem measureDistanceCm_sentinel_witness :
    measureDistanceCm (pulseInResult (some 583)) = (583 : ℚ) * (343 / 10000) / 2 ∧
      measureDistanceCm (pulseInResult none) = -1 :=
  ⟨(measureDistanceCm_sentinel (some 583)
      (by intro t ht; injection ht with h2; omega)).2 583 rfl,
   (measureDistanceCm_sentinel none (by intro t ht; cases ht)).1.mpr rfl⟩

/-! ## C9: the result is -1 or strictly positive -/

/-- C9: the value returned by `measureDistanceCm` is negative exactly when
the echo duration was 0 (timeout), in which case it is exactly `-1`; for any
positive duration the result is strictly positive, so the caller's check
`result < 0` identifies the timeout case exactly. -/
theorem measureDistanceCm_sign (duration : ℕ) :
    (measureDistanceCm duration < 0 ↔ duration = 0) ∧
      (duration = 0 → measureDistanceCm duration = -1) ∧
      (0 < duration → 0 < measureDistanceCm duration) := by
  by_cases hd : duration = 0
  · subst hd
    refine ⟨by simp [measureDistanceCm], fun _ => by simp [measureDistanceCm],
      fun h => absurd h (by omega)⟩
  · have hpos : (0 : ℚ) < (duration : ℚ) * (343 / 10000) / 2 := by
      have : (0 : ℚ) < (duration : ℚ) := by
        exact_mod_cast Nat.pos_iff_ne_zero.mpr hd
      positivity
    have hval : measureDistanceCm duration = (duration : ℚ) * (343 / 10000) / 2 := by
      simp [measureDistanceCm, hd]
    refine ⟨?_, fun h => absurd h hd, fun _ => hval ▸ hpos⟩
    rw [hval]
    constructor
    · intro hbad
      exact absurd (lt_trans hbad hpos) (lt_irrefl _)
    · intro hbad
      exact absurd hbad hd

/-- C9 witness at durations 0 and 583. -/
theorem measureDistanceCm_sign_witness :
    measureDistanceCm 0 = -1 ∧ 0 < measureDistanceCm 583 :=
  ⟨(measureDistanceCm_sign 0).2.1 rfl, (measureDistanceCm_sign 583).2.2 (by omega)⟩

end Sonar
